import Mathlib

/-!
Verification of the candle-flame brightness simulator in `hue_candle.py`.

The Python program drives Philips Hue fixtures from a small stochastic state
machine (`Flame`).  We embed the state machine shallowly: each call to
`random.randint` is replaced by a field of an `Entropy` record giving the
value that call would return on that tick, and the mutating method
`Flame.GetNextFlameBrightness` becomes a pure function from the old state and
the tick's entropy to the new state and the returned brightness.
-/

namespace HueCandle

/-- Module-level constant `MAX_BRIGHTNESS = 220` of `hue_candle.py`. -/
def MAX_BRIGHTNESS : Int := 220

/-- Module-level constant `MIN_BRIGHTNESS = 100` of `hue_candle.py`. -/
def MIN_BRIGHTNESS : Int := 100

/-- Class constant `Flame.WIND_VARIABILITY = 2`. -/
def WIND_VARIABILITY : Int := 2

/-- Class constant `Flame.FLAME_AGILITY = 20`. -/
def FLAME_AGILITY : Int := 20

/-- Class constant `Flame.WIND_BASELINE = 5`. -/
def WIND_BASELINE : Int := 5

/-- The mutable state of a `Flame` object: fields `flame`, `flameprime`
and `wind`. -/
structure Flame where
  flame : Int
  flameprime : Int
  wind : Int
deriving Repr, DecidableEq

/-- The state set up by `Flame.__init__`:
`flame = flameprime = MAX_BRIGHTNESS`, `wind = WIND_BASELINE`. -/
def Flame.init : Flame :=
  { flame := MAX_BRIGHTNESS, flameprime := MAX_BRIGHTNESS, wind := WIND_BASELINE }

/-- One tick's worth of draws from the entropy source.  Each field is the
value the corresponding `random.randint` call in `GetNextFlameBrightness`
would return this tick (a draw is simply ignored on branches where the code
does not make that call). -/
structure Entropy where
  gustRoll : Int
  gustWind : Int
  windRoll : Int
  flameTarget : Int
deriving Repr, DecidableEq

/-- Range constraints guaranteed by `random.randint`: `gustRoll` is drawn
from `[0, 1000]`, `gustWind` and `windRoll` from `[0, 255]`, and
`flameTarget` from `[MIN_BRIGHTNESS, MAX_BRIGHTNESS]`. -/
def Entropy.InRange (e : Entropy) : Prop :=
  0 ≤ e.gustRoll ∧ e.gustRoll ≤ 1000 ∧
  0 ≤ e.gustWind ∧ e.gustWind ≤ 255 ∧
  0 ≤ e.windRoll ∧ e.windRoll ≤ 255 ∧
  MIN_BRIGHTNESS ≤ e.flameTarget ∧ e.flameTarget ≤ MAX_BRIGHTNESS

instance (e : Entropy) : Decidable e.InRange := by
  unfold Entropy.InRange; infer_instance

/-- Gust roll (lines 89-90): `if random.randint(0, 1000) < self.WIND_VARIABILITY:
self.wind = random.randint(0, 255)`. -/
def gustStep (e : Entropy) (s : Flame) : Flame :=
  if e.gustRoll < WIND_VARIABILITY then { s with wind := e.gustWind } else s

/-- Wind settle (lines 93-94): `if self.wind > self.WIND_BASELINE:
self.wind -= 1`. -/
def settleStep (s : Flame) : Flame :=
  if s.wind > WIND_BASELINE then { s with wind := s.wind - 1 } else s

/-- Flame rise (lines 97-98): `if self.flame < MAX_BRIGHTNESS: self.flame += 1`. -/
def riseStep (s : Flame) : Flame :=
  if s.flame < MAX_BRIGHTNESS then { s with flame := s.flame + 1 } else s

/-- Gust-driven reset (lines 102-103): `if random.randint(0, 255) < self.wind:
self.flame = random.randint(MIN_BRIGHTNESS, MAX_BRIGHTNESS)`. -/
def resetStep (e : Entropy) (s : Flame) : Flame :=
  if e.windRoll < s.wind then { s with flame := e.flameTarget } else s

/-- Inertial filter (lines 109-118): move `flameprime` toward `flame` by at
most `FLAME_AGILITY`, clamped to `[MIN_BRIGHTNESS, MAX_BRIGHTNESS]`. -/
def inertialStep (s : Flame) : Flame :=
  if s.flame > s.flameprime then
    { s with flameprime := min (s.flameprime + FLAME_AGILITY) MAX_BRIGHTNESS }
  else
    { s with flameprime := max (s.flameprime - FLAME_AGILITY) MIN_BRIGHTNESS }

/-- The state reached just before the inertial filter of
`GetNextFlameBrightness` runs: gust roll, wind settle, flame rise and
gust-driven reset, in the source's order. -/
def preInertial (e : Entropy) (s : Flame) : Flame :=
  resetStep e (riseStep (settleStep (gustStep e s)))

/-- The whole of `Flame.GetNextFlameBrightness`: the new state together with
the returned brightness (`return self.flameprime`, line 122). -/
def GetNextFlameBrightness (s : Flame) (e : Entropy) : Flame × Int :=
  (inertialStep (preInertial e s), (inertialStep (preInertial e s)).flameprime)

/-- States of a `Flame` object reachable from `Flame.__init__` by calls to
`GetNextFlameBrightness` with in-range entropy. -/
inductive Reachable : Flame → Prop
  | init : Reachable Flame.init
  | step {s : Flame} {e : Entropy} : Reachable s → e.InRange →
      Reachable (GetNextFlameBrightness s e).1

/-- Running `GetNextFlameBrightness` once per tick over a list of entropy
draws, collecting the returned brightness values. -/
def runBr (s : Flame) : List Entropy → Flame × List Int
  | [] => (s, [])
  | e :: es =>
    let r := GetNextFlameBrightness s e
    let rest := runBr r.1 es
    (rest.1, r.2 :: rest.2)

/-- Entropy for one tick on which neither the gust branch nor the
gust-driven reset branch of `GetNextFlameBrightness` fires from state `s`. -/
def CalmFor (s : Flame) (e : Entropy) : Prop :=
  ¬ e.gustRoll < WIND_VARIABILITY ∧
  ¬ e.windRoll < (settleStep (gustStep e s)).wind

instance (s : Flame) (e : Entropy) : Decidable (CalmFor s e) := by
  unfold CalmFor; infer_instance

/-- What one gust-free, reset-free tick does to the state: only the wind
settle, flame rise and inertial-filter steps act. -/
def calmNext (s : Flame) : Flame :=
  inertialStep (riseStep (settleStep s))

/-- The brightness values returned over `n` gust-free, reset-free ticks
starting from state `s`. -/
def calmTrace (s : Flame) : Nat → List Int
  | 0 => []
  | n + 1 => (calmNext s).flameprime :: calmTrace (calmNext s) n

/-- Entropy draws realizing Scenario A of the spec: on tick 1 the gust roll
fails (1000 is not below `WIND_VARIABILITY`) but the wind-threshold roll 0 is
below the wind 5 and resets `flame` to the drawn target 100; on every later
tick the gust roll fails and the wind-threshold roll 255 cannot be below the
wind, so no gust and no reset ever fires again. -/
def scenarioA : List Entropy :=
  [⟨1000, 0, 0, 100⟩, ⟨1000, 0, 255, 100⟩, ⟨1000, 0, 255, 100⟩, ⟨1000, 0, 255, 100⟩,
   ⟨1000, 0, 255, 100⟩, ⟨1000, 0, 255, 100⟩, ⟨1000, 0, 255, 100⟩]

/-- Module-level constant `LIGHTS = [2, 4]` of `hue_candle.py`. -/
def LIGHTS : List Nat := [2, 4]

/-- The `flames` dictionary built by `main` (lines 140-143): each light id is
mapped to a freshly constructed `Flame()`. -/
def flamesInit : Nat → Flame := fun _ => Flame.init

/-- One tick of `main`'s loop in sync mode (lines 147-148): `brightness` is
computed once, from the `Flame` of `LIGHTS[0]`, and only that `Flame` is
mutated.  Returns the updated dictionary and the computed brightness. -/
def syncTick (fl : Nat → Flame) (e : Entropy) : (Nat → Flame) × Int :=
  let i0 := LIGHTS.headD 0
  let r := GetNextFlameBrightness (fl i0) e
  (fun j => if j = i0 then r.1 else fl j, r.2)

/-- The brightness commands dispatched on one sync-mode tick (lines 149-157):
one `(light id, brightness)` pair per entry of `LIGHTS`, all carrying the
single brightness computed by `syncTick`. -/
def syncCommands (fl : Nat → Flame) (e : Entropy) : List (Nat × Int) :=
  LIGHTS.map (fun i => (i, (syncTick fl e).2))

/-- The fixture dictionary after a sequence of sync-mode ticks. -/
def syncRun (fl : Nat → Flame) : List Entropy → (Nat → Flame)
  | [] => fl
  | e :: es => syncRun (syncTick fl e).1 es

/-- Model of `GetBridgeIpAndUsername` (lines 48-52) on the stripped lines of
the file: raise `ValueError` unless there are exactly two lines, else return
`(lines[0], lines[1])`. -/
def GetBridgeIpAndUsername (lines : List String) : Except String (String × String) :=
  if lines.length ≠ 2 then Except.error "File must have two lines!"
  else Except.ok (lines.getD 0 "", lines.getD 1 "")

/-! Helper lemmas characterizing each step field by field. -/

theorem gustStep_flame (e : Entropy) (s : Flame) : (gustStep e s).flame = s.flame := by
  unfold gustStep; split <;> rfl

theorem gustStep_flameprime (e : Entropy) (s : Flame) :
    (gustStep e s).flameprime = s.flameprime := by
  unfold gustStep; split <;> rfl

theorem gustStep_wind (e : Entropy) (s : Flame) :
    (gustStep e s).wind = if e.gustRoll < WIND_VARIABILITY then e.gustWind else s.wind := by
  unfold gustStep; split <;> rfl

theorem settleStep_flame (s : Flame) : (settleStep s).flame = s.flame := by
  unfold settleStep; split <;> rfl

theorem settleStep_flameprime (s : Flame) : (settleStep s).flameprime = s.flameprime := by
  unfold settleStep; split <;> rfl

theorem settleStep_wind (s : Flame) :
    (settleStep s).wind = if s.wind > WIND_BASELINE then s.wind - 1 else s.wind := by
  unfold settleStep; split <;> rfl

theorem riseStep_flame (s : Flame) :
    (riseStep s).flame = if s.flame < MAX_BRIGHTNESS then s.flame + 1 else s.flame := by
  unfold riseStep; split <;> rfl

theorem riseStep_flameprime (s : Flame) : (riseStep s).flameprime = s.flameprime := by
  unfold riseStep; split <;> rfl

theorem riseStep_wind (s : Flame) : (riseStep s).wind = s.wind := by
  unfold riseStep; split <;> rfl

theorem resetStep_flame (e : Entropy) (s : Flame) :
    (resetStep e s).flame = if e.windRoll < s.wind then e.flameTarget else s.flame := by
  unfold resetStep; split <;> rfl

theorem resetStep_flameprime (e : Entropy) (s : Flame) :
    (resetStep e s).flameprime = s.flameprime := by
  unfold resetStep; split <;> rfl

theorem resetStep_wind (e : Entropy) (s : Flame) : (resetStep e s).wind = s.wind := by
  unfold resetStep; split <;> rfl

theorem inertialStep_flame (s : Flame) : (inertialStep s).flame = s.flame := by
  unfold inertialStep; split <;> rfl

theorem inertialStep_wind (s : Flame) : (inertialStep s).wind = s.wind := by
  unfold inertialStep; split <;> rfl

theorem inertialStep_flameprime (s : Flame) :
    (inertialStep s).flameprime =
      if s.flame > s.flameprime then min (s.flameprime + FLAME_AGILITY) MAX_BRIGHTNESS
      else max (s.flameprime - FLAME_AGILITY) MIN_BRIGHTNESS := by
  unfold inertialStep; split <;> rfl

theorem preInertial_flameprime (e : Entropy) (s : Flame) :
    (preInertial e s).flameprime = s.flameprime := by
  unfold preInertial
  rw [resetStep_flameprime, riseStep_flameprime, settleStep_flameprime, gustStep_flameprime]

theorem preInertial_wind (e : Entropy) (s : Flame) :
    (preInertial e s).wind = (settleStep (gustStep e s)).wind := by
  unfold preInertial
  rw [resetStep_wind, riseStep_wind]

theorem preInertial_flame (e : Entropy) (s : Flame) :
    (preInertial e s).flame =
      if e.windRoll < (settleStep (gustStep e s)).wind then e.flameTarget
      else if s.flame < MAX_BRIGHTNESS then s.flame + 1 else s.flame := by
  unfold preInertial
  rw [resetStep_flame, riseStep_wind, riseStep_flame, settleStep_flame, gustStep_flame]

/-- The inertial filter keeps `flameprime` within the brightness bounds
whenever it starts there. -/
theorem inertialStep_flameprime_bounds (s : Flame)
    (h1 : MIN_BRIGHTNESS ≤ s.flameprime) (h2 : s.flameprime ≤ MAX_BRIGHTNESS) :
    MIN_BRIGHTNESS ≤ (inertialStep s).flameprime ∧
      (inertialStep s).flameprime ≤ MAX_BRIGHTNESS := by
  rw [inertialStep_flameprime]
  unfold MIN_BRIGHTNESS MAX_BRIGHTNESS FLAME_AGILITY at *
  split_ifs <;> constructor <;> omega

/-- Invariant: `flameprime` stays in `[MIN_BRIGHTNESS, MAX_BRIGHTNESS]` on
every reachable state. -/
theorem reachable_flameprime_bounds {s : Flame} (h : Reachable s) :
    MIN_BRIGHTNESS ≤ s.flameprime ∧ s.flameprime ≤ MAX_BRIGHTNESS := by
  induction h with
  | init => exact ⟨by decide, by decide⟩
  | step hr _hin ih =>
    rename_i s e
    have hpre := preInertial_flameprime e s
    have := inertialStep_flameprime_bounds (preInertial e s)
      (by rw [hpre]; exact ih.1) (by rw [hpre]; exact ih.2)
    exact this

/-- Invariant: `flame` stays in `[MIN_BRIGHTNESS, MAX_BRIGHTNESS]` on every
reachable state. -/
theorem reachable_flame_bounds {s : Flame} (h : Reachable s) :
    MIN_BRIGHTNESS ≤ s.flame ∧ s.flame ≤ MAX_BRIGHTNESS := by
  induction h with
  | init => exact ⟨by decide, by decide⟩
  | step hr hin ih =>
    rename_i s e
    rw [show (GetNextFlameBrightness s e).1 = inertialStep (preInertial e s) from rfl,
      inertialStep_flame, preInertial_flame]
    obtain ⟨-, -, -, -, -, -, h7, h8⟩ := hin
    unfold MIN_BRIGHTNESS MAX_BRIGHTNESS at *
    split_ifs <;> omega

/-- Invariant: `wind` stays in `[0, 255]` on every reachable state. -/
theorem reachable_wind_bounds {s : Flame} (h : Reachable s) :
    0 ≤ s.wind ∧ s.wind ≤ 255 := by
  induction h with
  | init => exact ⟨by decide, by decide⟩
  | step hr hin ih =>
    rename_i s e
    rw [show (GetNextFlameBrightness s e).1 = inertialStep (preInertial e s) from rfl,
      inertialStep_wind, preInertial_wind, settleStep_wind, gustStep_wind]
    obtain ⟨-, -, h3, h4, -, -, -, -⟩ := hin
    unfold WIND_BASELINE at *
    split_ifs <;> omega

theorem GetNext_state (s : Flame) (e : Entropy) :
    (GetNextFlameBrightness s e).1 = inertialStep (preInertial e s) := rfl

theorem GetNext_ret (s : Flame) (e : Entropy) :
    (GetNextFlameBrightness s e).2 = (GetNextFlameBrightness s e).1.flameprime := rfl

theorem runBr_cons_snd (s : Flame) (e : Entropy) (es : List Entropy) :
    (runBr s (e :: es)).2 =
      (GetNextFlameBrightness s e).2 :: (runBr (GetNextFlameBrightness s e).1 es).2 := rfl

theorem calmNext_wind_baseline (s : Flame) (hw : s.wind = WIND_BASELINE) :
    (calmNext s).wind = WIND_BASELINE := by
  unfold calmNext
  rw [inertialStep_wind, riseStep_wind, settleStep_wind]
  split <;> omega

/-- With wind at its baseline, a tick on which neither the gust roll nor the
wind-threshold roll passes is a pure `calmNext` step. -/
theorem calm_step (s : Flame) (e : Entropy) (hw : s.wind = WIND_BASELINE)
    (h1 : ¬ e.gustRoll < WIND_VARIABILITY) (h2 : WIND_BASELINE ≤ e.windRoll) :
    GetNextFlameBrightness s e = (calmNext s, (calmNext s).flameprime) := by
  have hg : gustStep e s = s := by unfold gustStep; rw [if_neg h1]
  have hst : settleStep s = s := by
    unfold settleStep; rw [if_neg (by omega)]
  have hr : resetStep e (riseStep (settleStep (gustStep e s))) =
      riseStep (settleStep (gustStep e s)) := by
    unfold resetStep
    rw [if_neg (by rw [riseStep_wind, hg, hst]; omega)]
  unfold GetNextFlameBrightness preInertial calmNext
  rw [hr, hg, hst]

theorem calmNext_wind_eq (s : Flame) (hw : s.wind = WIND_BASELINE) :
    calmNext s = inertialStep (riseStep s) := by
  unfold calmNext
  rw [show settleStep s = s by unfold settleStep; rw [if_neg (by omega)]]

/-- Over a list of gust-free, reset-free ticks with wind at its baseline, the
run's outputs are the `calmTrace`. -/
theorem calm_runBr (s : Flame) (es : List Entropy) (hw : s.wind = WIND_BASELINE)
    (hc : ∀ e ∈ es, ¬ e.gustRoll < WIND_VARIABILITY ∧ WIND_BASELINE ≤ e.windRoll) :
    (runBr s es).2 = calmTrace s es.length := by
  induction es generalizing s with
  | nil => rfl
  | cons e es ih =>
    have he := hc e (by simp)
    rw [runBr_cons_snd, calm_step s e hw he.1 he.2]
    show (calmNext s).flameprime :: (runBr (calmNext s) es).2 = _
    rw [ih (calmNext s) (calmNext_wind_baseline s hw) (fun x hx => hc x (by simp [hx]))]
    rfl

/-! Claim theorems. -/

/-- C1: from every reachable state and for every in-range entropy outcome,
`GetNextFlameBrightness` returns a value in
`[MIN_BRIGHTNESS, MAX_BRIGHTNESS]`, and `flameprime` lies in
`[MIN_BRIGHTNESS, MAX_BRIGHTNESS]` after the call. -/
theorem C1_brightness_in_range (s : Flame) (e : Entropy)
    (hs : Reachable s) (he : e.InRange) :
    MIN_BRIGHTNESS ≤ (GetNextFlameBrightness s e).2 ∧
    (GetNextFlameBrightness s e).2 ≤ MAX_BRIGHTNESS ∧
    MIN_BRIGHTNESS ≤ (GetNextFlameBrightness s e).1.flameprime ∧
    (GetNextFlameBrightness s e).1.flameprime ≤ MAX_BRIGHTNESS := by
  have h := reachable_flameprime_bounds (Reachable.step hs he)
  exact ⟨h.1, h.2, h.1, h.2⟩

theorem C1_witness :
    MIN_BRIGHTNESS ≤ (GetNextFlameBrightness Flame.init ⟨1000, 0, 255, 100⟩).2 ∧
    (GetNextFlameBrightness Flame.init ⟨1000, 0, 255, 100⟩).2 ≤ MAX_BRIGHTNESS ∧
    MIN_BRIGHTNESS ≤ (GetNextFlameBrightness Flame.init ⟨1000, 0, 255, 100⟩).1.flameprime ∧
    (GetNextFlameBrightness Flame.init ⟨1000, 0, 255, 100⟩).1.flameprime ≤ MAX_BRIGHTNESS :=
  C1_brightness_in_range Flame.init ⟨1000, 0, 255, 100⟩ Reachable.init (by decide)

/-- C5: from every reachable state and for every entropy outcome, the change
of `flameprime` over one call is at most `FLAME_AGILITY` in absolute value. -/
theorem C5_bounded_change (s : Flame) (e : Entropy) (hs : Reachable s) :
    |(GetNextFlameBrightness s e).1.flameprime - s.flameprime| ≤ FLAME_AGILITY := by
  have hb := reachable_flameprime_bounds hs
  rw [GetNext_state, inertialStep_flameprime, preInertial_flameprime, abs_le]
  unfold MIN_BRIGHTNESS MAX_BRIGHTNESS FLAME_AGILITY at *
  split_ifs <;> constructor <;> omega

theorem C5_witness :
    |(GetNextFlameBrightness Flame.init ⟨1000, 0, 255, 100⟩).1.flameprime -
        Flame.init.flameprime| ≤ FLAME_AGILITY :=
  C5_bounded_change Flame.init ⟨1000, 0, 255, 100⟩ Reachable.init

/-- C6: from every reachable state and for every in-range entropy outcome,
`wind` lies in `[0, 255]` after the call. -/
theorem C6_wind_in_range (s : Flame) (e : Entropy)
    (hs : Reachable s) (he : e.InRange) :
    0 ≤ (GetNextFlameBrightness s e).1.wind ∧
    (GetNextFlameBrightness s e).1.wind ≤ 255 :=
  reachable_wind_bounds (Reachable.step hs he)

theorem C6_witness :
    0 ≤ (GetNextFlameBrightness Flame.init ⟨0, 255, 255, 100⟩).1.wind ∧
    (GetNextFlameBrightness Flame.init ⟨0, 255, 255, 100⟩).1.wind ≤ 255 :=
  C6_wind_in_range Flame.init ⟨0, 255, 255, 100⟩ Reachable.init (by decide)

/-- C3: on any call from a reachable state on which, at the inertial-filter
step, `flame` equals `flameprime`, the decrease branch is taken: the new
`flameprime` is `max (flameprime - FLAME_AGILITY) MIN_BRIGHTNESS`; the update
is a no-op exactly when `flameprime` is already `MIN_BRIGHTNESS`, and
otherwise `flameprime` strictly decreases. -/
theorem C3_equality_decrease_branch (s : Flame) (e : Entropy) (hs : Reachable s)
    (heq : (preInertial e s).flame = (preInertial e s).flameprime) :
    (GetNextFlameBrightness s e).1.flameprime
        = max ((preInertial e s).flameprime - FLAME_AGILITY) MIN_BRIGHTNESS ∧
    ((GetNextFlameBrightness s e).1.flameprime = (preInertial e s).flameprime ↔
        (preInertial e s).flameprime = MIN_BRIGHTNESS) ∧
    ((preInertial e s).flameprime ≠ MIN_BRIGHTNESS →
        (GetNextFlameBrightness s e).1.flameprime < (preInertial e s).flameprime) := by
  have hb := reachable_flameprime_bounds hs
  have hstep : (GetNextFlameBrightness s e).1.flameprime
      = max ((preInertial e s).flameprime - FLAME_AGILITY) MIN_BRIGHTNESS := by
    rw [GetNext_state, inertialStep_flameprime, if_neg (by omega)]
  rw [preInertial_flameprime] at hstep ⊢
  rw [hstep]
  unfold MIN_BRIGHTNESS MAX_BRIGHTNESS FLAME_AGILITY at *
  exact ⟨rfl, by omega, by omega⟩

theorem C3_witness :
    (GetNextFlameBrightness Flame.init ⟨1000, 0, 255, 100⟩).1.flameprime
        = max ((preInertial ⟨1000, 0, 255, 100⟩ Flame.init).flameprime - FLAME_AGILITY)
            MIN_BRIGHTNESS ∧
    ((GetNextFlameBrightness Flame.init ⟨1000, 0, 255, 100⟩).1.flameprime =
        (preInertial ⟨1000, 0, 255, 100⟩ Flame.init).flameprime ↔
        (preInertial ⟨1000, 0, 255, 100⟩ Flame.init).flameprime = MIN_BRIGHTNESS) ∧
    ((preInertial ⟨1000, 0, 255, 100⟩ Flame.init).flameprime ≠ MIN_BRIGHTNESS →
        (GetNextFlameBrightness Flame.init ⟨1000, 0, 255, 100⟩).1.flameprime <
          (preInertial ⟨1000, 0, 255, 100⟩ Flame.init).flameprime) :=
  C3_equality_decrease_branch Flame.init ⟨1000, 0, 255, 100⟩ Reachable.init (by decide)

/-- C7: the algorithm is deterministic given its entropy: equal starting
states fed equal draw sequences give identical final states and identical
sequences of returned brightness values. -/
theorem C7_deterministic (s1 s2 : Flame) (es1 es2 : List Entropy)
    (hs : s1 = s2) (he : es1 = es2) :
    runBr s1 es1 = runBr s2 es2 := by
  subst hs; subst he; rfl

theorem C7_witness :
    runBr Flame.init scenarioA = runBr Flame.init scenarioA :=
  C7_deterministic Flame.init Flame.init scenarioA scenarioA rfl rfl

/-- C2 counterexample: the `scenarioA` draws satisfy the claim's premise — every
draw is in range, no gust roll ever passes, on tick 1 the wind-threshold roll
passes and resets `flame` to `MIN_BRIGHTNESS = 100`, and on every later tick the
wind-threshold roll 255 can never be below the wind, so no reset fires again —
yet the returned sequence is `[200, 180, 160, 140, 120, 100, 120]`: the seventh
value is 120, not the 100 the claim predicts, because `flame` has meanwhile
risen above the floor. -/
theorem C2_counterexample :
    (∀ e ∈ scenarioA, e.InRange) ∧
    (∀ e ∈ scenarioA, ¬ e.gustRoll < WIND_VARIABILITY) ∧
    (preInertial (⟨1000, 0, 0, 100⟩ : Entropy) Flame.init).flame = MIN_BRIGHTNESS ∧
    (∀ e ∈ scenarioA.tail, (255 : Int) ≤ e.windRoll) ∧
    (runBr Flame.init scenarioA).2 = [200, 180, 160, 140, 120, 100, 120] ∧
    (runBr Flame.init scenarioA).2.getD 6 0 ≠ 100 := by
  refine ⟨by decide, by decide, by decide, by decide, by decide, by decide⟩

/-- C2 amended: starting from `flame = flameprime = 220`, if on tick 1 the gust
roll fails but the wind-threshold roll passes with drawn target 100 (so
`flame` becomes 100), and on the six following ticks neither the gust roll nor
the wind-threshold roll passes, then the returned values are
`200, 180, 160, 140, 120, 100, 120`: `flameprime` drops by exactly
`FLAME_AGILITY = 20` per tick down to the floor 100, but it does not hold
there — `flame` has been rising by 1 per tick since the reset, so on the next
tick `flameprime` moves back up to 120. -/
theorem C2_amended (e1 : Entropy) (es : List Entropy)
    (h1 : ¬ e1.gustRoll < WIND_VARIABILITY)
    (h2 : e1.windRoll < WIND_BASELINE)
    (h3 : e1.flameTarget = MIN_BRIGHTNESS)
    (h4 : es.length = 6)
    (h5 : ∀ e ∈ es, ¬ e.gustRoll < WIND_VARIABILITY ∧ WIND_BASELINE ≤ e.windRoll) :
    (runBr Flame.init (e1 :: es)).2 = [200, 180, 160, 140, 120, 100, 120] := by
  have hg : gustStep e1 Flame.init = Flame.init := by
    unfold gustStep; rw [if_neg h1]
  have hpre : preInertial e1 Flame.init = ⟨100, 220, 5⟩ := by
    unfold preInertial
    rw [hg, show settleStep Flame.init = Flame.init from rfl,
      show riseStep Flame.init = Flame.init from rfl]
    unfold resetStep
    rw [if_pos (show e1.windRoll < Flame.init.wind from h2), h3]
    rfl
  have ht1 : GetNextFlameBrightness Flame.init e1 = (⟨100, 200, 5⟩, 200) := by
    unfold GetNextFlameBrightness
    rw [hpre]
    decide
  rw [runBr_cons_snd, ht1]
  show (200 : Int) :: (runBr ⟨100, 200, 5⟩ es).2 = _
  rw [calm_runBr ⟨100, 200, 5⟩ es rfl h5, h4]
  decide

theorem C2_amended_witness :
    (runBr Flame.init (⟨1000, 0, 0, 100⟩ ::
        [⟨1000, 0, 255, 100⟩, ⟨1000, 0, 255, 100⟩, ⟨1000, 0, 255, 100⟩,
         ⟨1000, 0, 255, 100⟩, ⟨1000, 0, 255, 100⟩, ⟨1000, 0, 255, 100⟩])).2
      = [200, 180, 160, 140, 120, 100, 120] :=
  C2_amended ⟨1000, 0, 0, 100⟩ _ (by decide) (by decide) (by decide) (by decide)
    (by decide)

/-- C4 counterexample: take the initial state, whose `flame` and `flameprime`
both already equal `MAX_BRIGHTNESS`, and a tick on which no gust and no reset
fires; the claim says `flameprime` remains steady at `MAX_BRIGHTNESS`, but the
call yields `flameprime = 200 = MAX_BRIGHTNESS - FLAME_AGILITY`: the equality
jitter of the inertial filter takes the decrease branch. -/
theorem C4_counterexample :
    CalmFor Flame.init ⟨1000, 0, 255, 100⟩ ∧
    Flame.init.flameprime = MAX_BRIGHTNESS ∧
    Flame.init.flame = MAX_BRIGHTNESS ∧
    (GetNextFlameBrightness Flame.init ⟨1000, 0, 255, 100⟩).1.flameprime = 200 ∧
    (200 : Int) ≠ MAX_BRIGHTNESS := by
  refine ⟨by decide, by decide, by decide, by decide, by decide⟩

/-- C4 amended: on any gust-free, reset-free tick from a reachable state,
`flame` rises by 1 clamped at `MAX_BRIGHTNESS` (so it climbs by 1 per tick
until the ceiling and then holds), and `flameprime` rises by `FLAME_AGILITY`
clamped at `MAX_BRIGHTNESS` whenever it is below `flame`; but once `flame` and
`flameprime` both reach `MAX_BRIGHTNESS`, `flameprime` does not remain steady:
it drops to `MAX_BRIGHTNESS - FLAME_AGILITY` and returns to `MAX_BRIGHTNESS`
on the following tick, oscillating between the two forever. -/
theorem C4_amended (s : Flame) (e : Entropy) (hs : Reachable s)
    (hc : CalmFor s e) :
    ((GetNextFlameBrightness s e).1.flame = min (s.flame + 1) MAX_BRIGHTNESS) ∧
    (s.flameprime < s.flame →
      (GetNextFlameBrightness s e).1.flameprime
        = min (s.flameprime + FLAME_AGILITY) MAX_BRIGHTNESS) ∧
    (s.flame = MAX_BRIGHTNESS → s.flameprime = MAX_BRIGHTNESS →
      (GetNextFlameBrightness s e).1.flameprime = MAX_BRIGHTNESS - FLAME_AGILITY) ∧
    (s.flame = MAX_BRIGHTNESS → s.flameprime = MAX_BRIGHTNESS - FLAME_AGILITY →
      (GetNextFlameBrightness s e).1.flameprime = MAX_BRIGHTNESS) := by
  obtain ⟨h1, h2⟩ := hc
  have hfb := reachable_flame_bounds hs
  have hfp := reachable_flameprime_bounds hs
  have hg : gustStep e s = s := by unfold gustStep; rw [if_neg h1]
  rw [hg] at h2
  have hpre : preInertial e s = riseStep (settleStep s) := by
    unfold preInertial
    rw [hg]
    unfold resetStep
    rw [if_neg (by rw [riseStep_wind]; exact h2)]
  have hF : (GetNextFlameBrightness s e).1.flame =
      if s.flame < MAX_BRIGHTNESS then s.flame + 1 else s.flame := by
    rw [GetNext_state, inertialStep_flame, hpre, riseStep_flame, settleStep_flame]
  have hFP : (GetNextFlameBrightness s e).1.flameprime =
      if (if s.flame < MAX_BRIGHTNESS then s.flame + 1 else s.flame) > s.flameprime
      then min (s.flameprime + FLAME_AGILITY) MAX_BRIGHTNESS
      else max (s.flameprime - FLAME_AGILITY) MIN_BRIGHTNESS := by
    rw [GetNext_state, inertialStep_flameprime, hpre, riseStep_flame, settleStep_flame,
      riseStep_flameprime, settleStep_flameprime]
  rw [hF, hFP]
  unfold MIN_BRIGHTNESS MAX_BRIGHTNESS FLAME_AGILITY at *
  refine ⟨by split_ifs <;> omega, ?_, ?_, ?_⟩ <;> intros <;> split_ifs <;> omega

theorem C4_witness :
    ((GetNextFlameBrightness Flame.init ⟨1000, 0, 255, 100⟩).1.flame
        = min (Flame.init.flame + 1) MAX_BRIGHTNESS) ∧
    (Flame.init.flameprime < Flame.init.flame →
      (GetNextFlameBrightness Flame.init ⟨1000, 0, 255, 100⟩).1.flameprime
        = min (Flame.init.flameprime + FLAME_AGILITY) MAX_BRIGHTNESS) ∧
    (Flame.init.flame = MAX_BRIGHTNESS → Flame.init.flameprime = MAX_BRIGHTNESS →
      (GetNextFlameBrightness Flame.init ⟨1000, 0, 255, 100⟩).1.flameprime
        = MAX_BRIGHTNESS - FLAME_AGILITY) ∧
    (Flame.init.flame = MAX_BRIGHTNESS →
      Flame.init.flameprime = MAX_BRIGHTNESS - FLAME_AGILITY →
      (GetNextFlameBrightness Flame.init ⟨1000, 0, 255, 100⟩).1.flameprime
        = MAX_BRIGHTNESS) :=
  C4_amended Flame.init ⟨1000, 0, 255, 100⟩ Reachable.init (by decide)

/-- C8: on a sync-mode tick the brightness is computed by a single call on the
`Flame` of the first light of `LIGHTS` (light 2), and the dispatched commands
send that same value to every configured light, so lights 2 and 4 receive
identical brightness values on every tick. -/
theorem C8_sync_identical (fl : Nat → Flame) (e : Entropy) :
    syncCommands fl e =
      [(2, (GetNextFlameBrightness (fl 2) e).2),
       (4, (GetNextFlameBrightness (fl 2) e).2)] ∧
    ∀ p1 ∈ syncCommands fl e, ∀ p2 ∈ syncCommands fl e, p1.2 = p2.2 := by
  refine ⟨rfl, ?_⟩
  intro p1 h1 p2 h2
  simp only [syncCommands, LIGHTS, List.map, List.mem_cons, List.not_mem_nil,
    or_false] at h1 h2
  rcases h1 with rfl | rfl <;> rcases h2 with rfl | rfl <;> rfl

/-- C10: in sync mode one `Flame` is built per light, but only the `Flame` of
`LIGHTS[0]` is ever stepped: after any sequence of sync-mode ticks, every
other light's `Flame` is still the freshly constructed state
`flame = flameprime = MAX_BRIGHTNESS`, `wind = WIND_BASELINE`. -/
theorem C10_sync_frame (es : List Entropy) (j : Nat)
    (_hj : j ∈ LIGHTS) (hne : j ≠ LIGHTS.headD 0) :
    syncRun flamesInit es j = Flame.init ∧
    Flame.init.flame = MAX_BRIGHTNESS ∧
    Flame.init.flameprime = MAX_BRIGHTNESS ∧
    Flame.init.wind = WIND_BASELINE := by
  have frame : ∀ (es : List Entropy) (fl : Nat → Flame), syncRun fl es j = fl j := by
    intro es
    induction es with
    | nil => intro fl; rfl
    | cons e es ih =>
      intro fl
      show syncRun (syncTick fl e).1 es j = fl j
      rw [ih]
      show (if j = LIGHTS.headD 0 then _ else fl j) = fl j
      rw [if_neg hne]
  exact ⟨frame es flamesInit, rfl, rfl, rfl⟩

theorem C10_witness :
    syncRun flamesInit scenarioA 4 = Flame.init ∧
    Flame.init.flame = MAX_BRIGHTNESS ∧
    Flame.init.flameprime = MAX_BRIGHTNESS ∧
    Flame.init.wind = WIND_BASELINE :=
  C10_sync_frame scenarioA 4 (by decide) (by decide)

/-- C9: the model of `GetBridgeIpAndUsername` fails with the format error
exactly when its source does not consist of exactly two lines, and on a
two-line source it returns the pair of the two lines. -/
theorem C9_two_lines (lines : List String) :
    ((∃ msg, GetBridgeIpAndUsername lines = Except.error msg) ↔ lines.length ≠ 2) ∧
    (∀ a b : String, lines = [a, b] → GetBridgeIpAndUsername lines = Except.ok (a, b)) := by
  constructor
  · constructor
    · rintro ⟨msg, hmsg⟩ h2
      unfold GetBridgeIpAndUsername at hmsg
      rw [if_neg (by omega)] at hmsg
      exact Except.noConfusion hmsg
    · intro h
      exact ⟨"File must have two lines!", by unfold GetBridgeIpAndUsername; rw [if_pos h]⟩
  · rintro a b rfl
    unfold GetBridgeIpAndUsername
    simp

theorem C9_witness :
    GetBridgeIpAndUsername ["192.168.1.42", "ab8d8fbd"] =
      Except.ok ("192.168.1.42", "ab8d8fbd") :=
  (C9_two_lines ["192.168.1.42", "ab8d8fbd"]).2 "192.168.1.42" "ab8d8fbd" rfl

end HueCandle
